import Mathlib

/-!
Formal verification of the quantitative analytics core of the stock_agents
repository (src/agents/strategy_agent.py, risk_agent.py, play_agent.py,
research_agent.py) against its natural-language specification.

Modelling conventions:
* Python/pandas floats are modelled as exact rationals (ℚ); a pandas NaN
  entry is modelled as `none` in `Option ℚ`.
* Irrational intermediate values (annualised volatility std·√252, Sharpe
  ratios, RSI-free quantities involving square roots) are carried by their
  defining rational data: a volatility is stored squared (252·variance),
  and comparisons `x < k·σ` are encoded by the exact rational equivalents
  (`gtScaledSqrt` below, with a justification lemma over `Real.sqrt`).
* pandas reductions use their actual defaults: `std`/`var`/`cov` use
  ddof = 1 and give NaN below two observations; `cumprod`/`cummax` skip
  NaN entries while leaving NaN at the NaN positions; comparisons with
  NaN are false.
-/

namespace StockAgents

/- Batteries marks the rational-number field operations irreducible, which
blocks `decide` on concrete rational computations; restore the default
transparency for this development so witnesses evaluate. -/
attribute [local semireducible] Rat.mul Rat.add Rat.sub Rat.inv

/-- Arithmetic mean of a list of rationals (pandas mean of a clean series;
callers that could hit the empty case guard it explicitly). -/
def meanQ (xs : List ℚ) : ℚ := xs.sum / xs.length

/-- Sample variance with ddof = 1 as used by pandas `Series.std`/`var`;
`none` models the NaN produced for fewer than two observations. -/
def sampleVar? (xs : List ℚ) : Option ℚ :=
  if xs.length < 2 then none
  else some (((xs.map (fun x => (x - meanQ xs) ^ 2)).sum) / ((xs.length : ℚ) - 1))

/-- Entry `i` of pandas `Series.pct_change(periods = p)` on a price column:
`(c_i - c_{i-p}) / c_{i-p}`, NaN (`none`) for the first `p` rows or out of
range. A zero base price would give an IEEE infinity in the source; the
model returns `none` there, and theorems whose conclusion could depend on
such a bar avoid it (price series are positive). -/
def pctChangeAt (closes : List ℚ) (p i : ℕ) : Option ℚ :=
  if p ≤ i then
    match closes[i - p]?, closes[i]? with
    | some a, some b => if a = 0 then none else some ((b - a) / a)
    | _, _ => none
  else none

/-- Momentum signal of `StrategyAgent.backtest_momentum_strategy`
(strategy_agent.py line 55): `np.where(data['Momentum'] > 0, 1, -1)`.
A NaN momentum compares as not-greater-than-zero, hence yields -1. -/
def momSignalAt (closes : List ℚ) (p i : ℕ) : ℚ :=
  match pctChangeAt closes p i with
  | some m => if 0 < m then 1 else -1
  | none => -1

/-- Held position of the momentum backtest (strategy_agent.py line 58):
`data['Position'] = data['Signal'].shift(1)`; bar 0 has no position (NaN). -/
def momPositionAt (closes : List ℚ) (p t : ℕ) : Option ℚ :=
  if t = 0 then none else some (momSignalAt closes p (t - 1))

/-- C10: in the momentum backtest the per-bar signal is always +1 or -1 and
never 0; every warm-up bar (index < lookback_period, where momentum is
NaN) and every bar with momentum ≤ 0 gets signal -1; consequently the held
position throughout the warm-up window `1 ≤ t ≤ lookback_period` is short
(-1) rather than flat. -/
theorem momentum_signal_never_flat (closes : List ℚ) (p i t : ℕ) :
    (momSignalAt closes p i = 1 ∨ momSignalAt closes p i = -1) ∧
    (i < p → momSignalAt closes p i = -1) ∧
    (∀ m, pctChangeAt closes p i = some m → m ≤ 0 → momSignalAt closes p i = -1) ∧
    (1 ≤ t → t ≤ p → momPositionAt closes p t = some (-1)) := by
  refine ⟨?_, ?_, ?_, ?_⟩
  · unfold momSignalAt
    cases h : pctChangeAt closes p i with
    | none => exact Or.inr rfl
    | some m =>
      by_cases hm : 0 < m
      · exact Or.inl (by simp [hm])
      · exact Or.inr (by simp [hm])
  · intro hip
    unfold momSignalAt pctChangeAt
    simp [Nat.not_le.mpr hip]
  · intro m hm hle
    unfold momSignalAt
    rw [hm]
    simp [not_lt.mpr hle]
  · intro ht1 htp
    unfold momPositionAt
    rw [if_neg (by omega)]
    have hwarm : t - 1 < p := by omega
    have : momSignalAt closes p (t - 1) = -1 := by
      unfold momSignalAt pctChangeAt
      simp [Nat.not_le.mpr hwarm]
    rw [this]

/-- Witness for `momentum_signal_never_flat` at a concrete price series. -/
theorem momentum_signal_never_flat_w :
    momSignalAt [1, 2, 4] 2 1 = -1 ∧ momPositionAt [1, 2, 4] 2 2 = some (-1) :=
  ⟨(momentum_signal_never_flat [1, 2, 4] 2 1 2).2.1 (by decide),
   (momentum_signal_never_flat [1, 2, 4] 2 1 2).2.2.2 (by decide) (by decide)⟩

/-- Window of the `w` closes ending at row `i`, the data pandas
`rolling(window = w)` aggregates at row `i`; `none` models the NaN rows
before `w` observations are available. Inside the guard every index
`i + 1 - w + d` with `d < w` is in range, so `getD _ _ 0` never falls back. -/
def windowAt (closes : List ℚ) (w i : ℕ) : Option (List ℚ) :=
  if w ≤ i + 1 ∧ i < closes.length then
    some ((List.range w).map (fun d => closes.getD (i + 1 - w + d) 0))
  else none

/-- Exact rational test deciding `k·√v < d` for a variance `v ≥ 0`. The
source compares float prices against Bollinger bands `MA ± std_devs·STD`
where `STD = √v`; this encodes those comparisons without square roots. -/
def gtScaledSqrt (d k v : ℚ) : Bool :=
  if 0 ≤ k then decide (0 < d ∧ v * k ^ 2 < d ^ 2)
  else decide (0 < d ∨ (d ≤ 0 ∧ d ^ 2 < v * k ^ 2))

/-- Justification of the encoding: over the reals, `gtScaledSqrt d k v`
decides exactly `k·√v < d` whenever `v ≥ 0`. -/
theorem gtScaledSqrt_iff (d k v : ℚ) (hv : 0 ≤ v) :
    gtScaledSqrt d k v = true ↔ (k : ℝ) * Real.sqrt (v : ℝ) < (d : ℝ) := by
  have hs : (0 : ℝ) ≤ Real.sqrt (v : ℝ) := Real.sqrt_nonneg _
  have hs2 : Real.sqrt (v : ℝ) ^ 2 = (v : ℝ) := Real.sq_sqrt (by exact_mod_cast hv)
  by_cases hk : 0 ≤ k
  · have hks : (0 : ℝ) ≤ (k : ℝ) * Real.sqrt (v : ℝ) :=
      mul_nonneg (by exact_mod_cast hk) hs
    simp only [gtScaledSqrt, if_pos hk, decide_eq_true_eq]
    constructor
    · rintro ⟨hd, hlt⟩
      have hd' : (0 : ℝ) < (d : ℝ) := by exact_mod_cast hd
      have hlt' : (v : ℝ) * (k : ℝ) ^ 2 < (d : ℝ) ^ 2 := by exact_mod_cast hlt
      nlinarith [hks, hd', hs2]
    · intro h
      have hd' : (0 : ℝ) < (d : ℝ) := lt_of_le_of_lt hks h
      refine ⟨by exact_mod_cast hd', ?_⟩
      have : ((k : ℝ) * Real.sqrt (v : ℝ)) ^ 2 < (d : ℝ) ^ 2 :=
        pow_lt_pow_left₀ h hks (by omega)
      have hvk : (v : ℝ) * (k : ℝ) ^ 2 < (d : ℝ) ^ 2 := by nlinarith [hs2]
      exact_mod_cast hvk
  · have hk' : (k : ℝ) < 0 := by exact_mod_cast not_le.mp hk
    have hks : (k : ℝ) * Real.sqrt (v : ℝ) ≤ 0 := mul_nonpos_of_nonpos_of_nonneg hk'.le hs
    simp only [gtScaledSqrt, if_neg hk, decide_eq_true_eq]
    constructor
    · rintro (hd | ⟨hd0, hsq⟩)
      · exact lt_of_le_of_lt hks (by exact_mod_cast hd)
      · have hd0' : (d : ℝ) ≤ 0 := by exact_mod_cast hd0
        have hsq' : (d : ℝ) ^ 2 < (v : ℝ) * (k : ℝ) ^ 2 := by exact_mod_cast hsq
        nlinarith [hs2, hs, hks]
    · intro h
      by_cases hd : 0 < d
      · exact Or.inl hd
      · refine Or.inr ⟨not_lt.mp hd, ?_⟩
        have hd0' : (d : ℝ) ≤ 0 := by exact_mod_cast not_lt.mp hd
        have hvk : (d : ℝ) ^ 2 < (v : ℝ) * (k : ℝ) ^ 2 := by nlinarith [hs2, hs]
        exact_mod_cast hvk

/-- Mean-reversion (Bollinger) signal of
`StrategyAgent.backtest_mean_reversion_strategy` (strategy_agent.py lines
128-137): +1 when `Close < MA - std_devs·STD`, -1 when
`Close > MA + std_devs·STD`, else 0. Rows where the rolling statistics are
NaN (fewer than `w` rows, or sample std undefined for `w < 2`) compare as
false on both bands and give 0. -/
def mrSignalAt (closes : List ℚ) (w : ℕ) (k : ℚ) (i : ℕ) : ℚ :=
  match windowAt closes w i, closes[i]? with
  | some win, some c =>
    match sampleVar? win with
    | some v =>
      if gtScaledSqrt (meanQ win - c) k v then 1
      else if gtScaledSqrt (c - meanQ win) k v then -1
      else 0
    | none => 0
  | _, _ => 0

/-- Held position of the mean-reversion backtest (strategy_agent.py line
140): `data['Position'] = data['Signal'].shift(1)`. -/
def mrPositionAt (closes : List ℚ) (w : ℕ) (k : ℚ) (t : ℕ) : Option ℚ :=
  if t = 0 then none else some (mrSignalAt closes w k (t - 1))

theorem pctChangeAt_set (closes : List ℚ) (p i j : ℕ) (x : ℚ) (hij : i < j) :
    pctChangeAt (closes.set j x) p i = pctChangeAt closes p i := by
  unfold pctChangeAt
  rw [List.getElem?_set_ne (show j ≠ i - p by omega),
    List.getElem?_set_ne (show j ≠ i by omega)]

theorem windowAt_set (closes : List ℚ) (w i j : ℕ) (x : ℚ) (hij : i < j) :
    windowAt (closes.set j x) w i = windowAt closes w i := by
  unfold windowAt
  rw [List.length_set]
  by_cases h : w ≤ i + 1 ∧ i < closes.length
  · rw [if_pos h, if_pos h]
    refine congrArg some (List.map_congr_left ?_)
    intro d hd
    have hd' : d < w := List.mem_range.mp hd
    have hne : j ≠ i + 1 - w + d := by omega
    simp only [List.getD_eq_getElem?_getD, List.getElem?_set_ne hne]
  · rw [if_neg h, if_neg h]

theorem mrSignalAt_set (closes : List ℚ) (w : ℕ) (k : ℚ) (i j : ℕ) (x : ℚ)
    (hij : i < j) : mrSignalAt (closes.set j x) w k i = mrSignalAt closes w k i := by
  unfold mrSignalAt
  rw [windowAt_set closes w i j x hij, List.getElem?_set_ne (show j ≠ i by omega)]

/-- C1: in both backtests the held position at bar `t` is exactly the
signal computed at bar `t - 1` (one-bar lag), and consequently neither
backtest looks ahead: overwriting the close price of any bar with index
`j > t` leaves the position computed for bar `t` unchanged, for the
momentum strategy and the mean-reversion strategy alike. -/
theorem backtest_no_lookahead (closes : List ℚ) (p w : ℕ) (k : ℚ) (j t : ℕ) (x : ℚ) :
    (1 ≤ t →
      momPositionAt closes p t = some (momSignalAt closes p (t - 1)) ∧
      mrPositionAt closes w k t = some (mrSignalAt closes w k (t - 1))) ∧
    (t < j →
      momPositionAt (closes.set j x) p t = momPositionAt closes p t ∧
      mrPositionAt (closes.set j x) w k t = mrPositionAt closes w k t) := by
  constructor
  · intro ht
    constructor
    · unfold momPositionAt
      rw [if_neg (by omega)]
    · unfold mrPositionAt
      rw [if_neg (by omega)]
  · intro htj
    by_cases ht : t = 0
    · subst ht
      exact ⟨rfl, rfl⟩
    · have ht1 : t - 1 < j := by omega
      constructor
      · unfold momPositionAt
        rw [if_neg ht, if_neg ht]
        have : momSignalAt (closes.set j x) p (t - 1) = momSignalAt closes p (t - 1) := by
          unfold momSignalAt
          rw [pctChangeAt_set closes p (t - 1) j x ht1]
        rw [this]
      · unfold mrPositionAt
        rw [if_neg ht, if_neg ht, mrSignalAt_set closes w k (t - 1) j x ht1]

/-- Witness for `backtest_no_lookahead`: bar 2's positions are unchanged
when bar 3's close is rewritten from 8 to 100. -/
theorem backtest_no_lookahead_w :
    (momPositionAt (([1, 2, 4, 8] : List ℚ).set 3 100) 2 2 = momPositionAt [1, 2, 4, 8] 2 2 ∧
      mrPositionAt (([1, 2, 4, 8] : List ℚ).set 3 100) 2 2 2 = mrPositionAt [1, 2, 4, 8] 2 2 2) ∧
    momPositionAt [1, 2, 4, 8] 2 2 = some (momSignalAt [1, 2, 4, 8] 2 1) :=
  ⟨(backtest_no_lookahead [1, 2, 4, 8] 2 2 2 3 2 100).2 (by decide),
   ((backtest_no_lookahead [1, 2, 4, 8] 2 2 2 3 2 100).1 (by decide)).1⟩

/-- Mean of a pandas series as `Option`: NaN (`none`) on an empty series. -/
def mean? (xs : List ℚ) : Option ℚ :=
  if xs.isEmpty then none else some (meanQ xs)

/-- Linear-interpolation percentile exactly as `np.percentile` computes it
with its default method: sort ascending, set `pos = q/100·(n-1)`, and
interpolate linearly between the two neighbouring order statistics.
`none` models the exceptions `np.percentile` raises (empty data, or a
percentile outside [0, 100]). -/
def percentileQ (xs : List ℚ) (q : ℚ) : Option ℚ :=
  if xs.isEmpty ∨ q < 0 ∨ 100 < q then none
  else
    let s := xs.mergeSort (fun a b => decide (a ≤ b))
    let pos := q / 100 * ((xs.length : ℚ) - 1)
    let i := pos.floor.toNat
    match s[i]?, s[i + 1]? with
    | some a, some b => some (a + (pos - (i : ℚ)) * (b - a))
    | some a, none => some a
    | _, _ => none

/-- RiskAgent.calculate_var (risk_agent.py lines 29-62). The whole body is
wrapped in try/except: the unknown-method branch raises ValueError, which
the function's own blanket handler catches, logging the error and
returning 0.0 to the caller; an exception in the historical branch (empty
data) is likewise caught and becomes 0.0. The parametric branch calls
scipy's inverse normal CDF on `(1 - confidence, mean, std)`; that
transcendental library function is passed in abstractly as `ppf`, applied
to the probability, the sample mean and the sample variance (`none` for
the NaN statistics of a degenerate series) — theorems below hold for every
`ppf`. -/
def calculate_var (ppf : ℚ → Option ℚ → Option ℚ → ℚ) (returns : List ℚ)
    (confidence_level : ℚ) (method : String) : ℚ :=
  if method = "historical" then
    match percentileQ returns ((1 - confidence_level) * 100) with
    | some v => v
    | none => 0
  else if method = "parametric" then
    ppf (1 - confidence_level) (mean? returns) (sampleVar? returns)
  else 0

/-- C2 counterexample: with the unknown method name "monte_carlo",
`calculate_var` does not fail with an error result — it silently returns
the numeric fallback 0.0 to its caller (its internal ValueError is caught
by its own except handler), contradicting the claim. -/
theorem calculate_var_unknown_method_cex :
    calculate_var (fun _ _ _ => 0) [1 / 100, -(1 / 50)] (19 / 20) "monte_carlo" = 0 := by
  decide

/-- C2 amended: for every returns series, confidence level and method name
outside {historical, parametric}, `calculate_var` raises ValueError
internally but its own blanket except handler swallows it and the call
returns the numeric value 0.0; no error reaches the caller. -/
theorem calculate_var_unknown_method_fallback
    (ppf : ℚ → Option ℚ → Option ℚ → ℚ) (returns : List ℚ)
    (confidence_level : ℚ) (method : String)
    (h1 : method ≠ "historical") (h2 : method ≠ "parametric") :
    calculate_var ppf returns confidence_level method = 0 := by
  unfold calculate_var
  rw [if_neg h1, if_neg h2]

/-- Witness for `calculate_var_unknown_method_fallback`. -/
theorem calculate_var_unknown_method_fallback_w :
    calculate_var (fun _ _ _ => 37) [3 / 100] (9 / 10) "cornish_fisher" = 0 :=
  calculate_var_unknown_method_fallback (fun _ _ _ => 37) [3 / 100] (9 / 10)
    "cornish_fisher" (by decide) (by decide)

/-- Pointwise multiplication of possibly-NaN float values. -/
def omul : Option ℚ → Option ℚ → Option ℚ
  | some a, some b => some (a * b)
  | _, _ => none

/-- Pointwise subtraction of possibly-NaN float values. -/
def osub : Option ℚ → Option ℚ → Option ℚ
  | some a, some b => some (a - b)
  | _, _ => none

/-- Float division: NaN operands and division by zero (inf/NaN results)
are modelled as `none`. -/
def odiv : Option ℚ → Option ℚ → Option ℚ
  | some a, some b => if b = 0 then none else some (a / b)
  | _, _ => none

/-- A float value appearing in a modelled DataFrame column: either an
exact rational, or the value `a + b·√v` (rolling standard deviations and
Bollinger bands, which are irrational in general, are carried by their
defining rational data). -/
inductive FVal where
  | fin (x : ℚ) : FVal
  | plusSqrt (a b v : ℚ) : FVal
deriving DecidableEq

/-- A pandas DataFrame as the ordered association of its column names to
columns of possibly-NaN float values. -/
abbrev DFrame := List (String × List (Option FVal))

/-- Column read (`data[name]`): `none` models the KeyError for a missing
column. -/
def dfGet (df : DFrame) (name : String) : Option (List (Option FVal)) :=
  df.lookup name

/-- In-place column write (`data[name] = col`): replaces the column if the
name exists, otherwise appends it — mutating the frame the caller passed. -/
def dfSet : DFrame → String → List (Option FVal) → DFrame
  | [], name, col => [(name, col)]
  | p :: rest, name, col =>
    if p.1 = name then (name, col) :: rest else p :: dfSet rest name col

/-- Close prices of a caller-supplied frame. Price frames from the data
layer carry plain float closes, so every entry is `some (FVal.fin x)`; the
fallbacks for other shapes are never exercised by such frames. -/
def closesOf (col : List (Option FVal)) : List ℚ :=
  col.map (fun o => match o with | some (FVal.fin x) => x | _ => 0)

/-- Position column entry (`Signal.shift(1)`, shared verbatim by both
backtests) for an arbitrary per-bar signal `sig`. -/
def posAt (sig : ℕ → ℚ) (t : ℕ) : Option ℚ :=
  if t = 0 then none else some (sig (t - 1))

/-- Absolute value, spelled out so that concrete evaluation reduces in the
kernel. -/
def qabs (d : ℚ) : ℚ := if d < 0 then -d else d

/-- Trades column entry (`Position.diff().abs()`): NaN at bar 0 and at
bar 1 (where the previous position is NaN). -/
def tradesAt (sig : ℕ → ℚ) (t : ℕ) : Option ℚ :=
  if t = 0 then none
  else (osub (posAt sig t) (posAt sig (t - 1))).map qabs

/-- Net strategy return per bar:
`Position·Returns − Trades·commission_rate`. -/
def netAt (closes : List ℚ) (sig : ℕ → ℚ) (c : ℚ) (t : ℕ) : Option ℚ :=
  osub (omul (posAt sig t) (pctChangeAt closes 1 t))
    ((tradesAt sig t).map (fun x => x * c))

/-- The Trades column. -/
def tradesColF (sig : ℕ → ℚ) (n : ℕ) : List (Option ℚ) :=
  (List.range n).map (tradesAt sig)

/-- The Strategy_Returns_Net column. -/
def netColF (closes : List ℚ) (sig : ℕ → ℚ) (c : ℚ) : List (Option ℚ) :=
  (List.range closes.length).map (netAt closes sig c)

/-- Cumulative product with pandas skipna semantics: NaN entries stay NaN
while the running product continues past them. -/
def cumprodSkipAux (acc : ℚ) : List (Option ℚ) → List (Option ℚ)
  | [] => []
  | none :: xs => none :: cumprodSkipAux acc xs
  | some v :: xs => some (acc * v) :: cumprodSkipAux (acc * v) xs

/-- Cumulative maximum with pandas skipna semantics. -/
def cummaxSkipAux (acc : Option ℚ) : List (Option ℚ) → List (Option ℚ)
  | [] => []
  | none :: xs => none :: cummaxSkipAux acc xs
  | some v :: xs =>
    match acc with
    | none => some v :: cummaxSkipAux (some v) xs
    | some a => some (max a v) :: cummaxSkipAux (some (max a v)) xs

/-- Equity column: `(1 + Strategy_Returns_Net).cumprod() * initial_capital`. -/
def equityColF (closes : List ℚ) (sig : ℕ → ℚ) (c cap : ℚ) : List (Option ℚ) :=
  (cumprodSkipAux 1 ((netColF closes sig c).map (Option.map (fun r => 1 + r)))).map
    (Option.map (fun e => e * cap))

/-- Minimum of a possibly-NaN column with skipna semantics (`none` only
when no entry is defined, as pandas min of an all-NaN/empty series). -/
def minSkip (xs : List (Option ℚ)) : Option ℚ :=
  xs.foldl (fun acc x =>
    match acc, x with
    | none, v => v
    | some a, some v => some (min a v)
    | some a, none => some a) none

/-- Count of entries strictly greater than zero, NaN comparing as false:
`(column > 0).sum()`. -/
def countPos (xs : List (Option ℚ)) : ℕ :=
  xs.countP (fun o => match o with | some v => decide (0 < v) | none => false)

/-- The Sharpe ratio of a backtest result (strategy_agent.py line 75:
`annual_return / volatility if volatility != 0 else 0`). `zero` is the
guarded zero-volatility branch; `undef` is the NaN produced when the
volatility itself is NaN; `ofData tr n v` carries the defining data of the
float `((1+tr)^(252/n) - 1) / √v`, which is irrational in general. -/
inductive SharpeBT where
  | zero : SharpeBT
  | undef : SharpeBT
  | ofData (total_return : Option ℚ) (n : ℕ) (volSq : ℚ) : SharpeBT
deriving DecidableEq

/-- Backtest result bundle of both strategies. `volSq` stores the squared
annualised volatility `252·var(net returns)` (`none` for NaN); the
annualised return, being `(1+total_return)^(252/n) - 1`, is determined by
`total_return` and `nBars` and is not stored separately. -/
structure BTResults where
  total_return : Option ℚ
  nBars : ℕ
  volSq : Option ℚ
  sharpe : SharpeBT
  max_drawdown : Option ℚ
  win_rate : ℚ
  total_trades : ℕ
  equity_curve : List (Option ℚ)
  drawdown_curve : List (Option ℚ)
deriving DecidableEq

/-- Performance-metric block shared verbatim by both backtests
(strategy_agent.py lines 71-97): returns `none` exactly when the frame is
empty, where `Equity.iloc[-1]` raises IndexError (caught by the function's
except handler). -/
def runBacktestCore (closes : List ℚ) (sig : ℕ → ℚ) (c cap : ℚ) : Option BTResults :=
  let net := netColF closes sig c
  let equity := equityColF closes sig c cap
  match equity.getLast? with
  | none => none
  | some eqLast =>
    let peak := cummaxSkipAux none equity
    let dd := List.zipWith (fun e pk => odiv (osub e pk) pk) equity peak
    let tr : Option ℚ := eqLast.bind (fun e => if cap = 0 then none else some (e / cap - 1))
    let vq := (sampleVar? net.reduceOption).map (fun v => 252 * v)
    let trades := countPos (tradesColF sig closes.length)
    some {
      total_return := tr
      nBars := closes.length
      volSq := vq
      sharpe :=
        match vq with
        | none => SharpeBT.undef
        | some v => if v = 0 then SharpeBT.zero else SharpeBT.ofData tr closes.length v
      max_drawdown := minSkip dd
      win_rate := if 0 < trades then (countPos net : ℚ) / trades else 0
      total_trades := trades
      equity_curve := equity
      drawdown_curve := dd }

/-- Lift a column of exact rationals into DataFrame storage. -/
def finCol (xs : List (Option ℚ)) : List (Option FVal) :=
  xs.map (Option.map FVal.fin)

/-- StrategyAgent.backtest_momentum_strategy (strategy_agent.py lines
28-103) as a state-passing function: it returns the caller's frame after
the in-place column writes the source performs, together with the result
dictionary (`none` models the `except` branch returning `{}`). On an empty
frame the IndexError at `Equity.iloc[-1]` fires after the Equity write, so
Peak and Drawdown are never written but the first nine derived columns
remain in the caller's frame. -/
def backtest_momentum_strategy (df : DFrame) (p : ℕ) (cap c : ℚ) :
    DFrame × Option BTResults :=
  match dfGet df "Close" with
  | none => (df, none)
  | some closeCol =>
    let closes := closesOf closeCol
    let n := closes.length
    let sig := fun i => momSignalAt closes p i
    let df1 := dfSet df "Returns" (finCol ((List.range n).map (pctChangeAt closes 1)))
    let df2 := dfSet df1 "Momentum" (finCol ((List.range n).map (pctChangeAt closes p)))
    let df3 := dfSet df2 "Signal" (finCol ((List.range n).map (fun i => some (sig i))))
    let df4 := dfSet df3 "Position" (finCol ((List.range n).map (posAt sig)))
    let df5 := dfSet df4 "Strategy_Returns"
      (finCol ((List.range n).map (fun t => omul (posAt sig t) (pctChangeAt closes 1 t))))
    let df6 := dfSet df5 "Trades" (finCol (tradesColF sig n))
    let df7 := dfSet df6 "Commission" (finCol ((tradesColF sig n).map (Option.map (fun x => x * c))))
    let df8 := dfSet df7 "Strategy_Returns_Net" (finCol (netColF closes sig c))
    let df9 := dfSet df8 "Equity" (finCol (equityColF closes sig c cap))
    match runBacktestCore closes sig c cap with
    | none => (df9, none)
    | some res =>
      let df10 := dfSet df9 "Peak" (finCol (cummaxSkipAux none (equityColF closes sig c cap)))
      let df11 := dfSet df10 "Drawdown" (finCol res.drawdown_curve)
      (df11, some res)

/-- StrategyAgent.backtest_mean_reversion_strategy (strategy_agent.py
lines 105-186), state-passing as above. A zero rolling window makes
pandas raise before any write (frame returned untouched). The STD and
band columns hold irrational floats `√v` and `MA ± std_devs·√v`; they are
stored as `FVal.plusSqrt` data. -/
def backtest_mean_reversion_strategy (df : DFrame) (w : ℕ) (k cap c : ℚ) :
    DFrame × Option BTResults :=
  match dfGet df "Close" with
  | none => (df, none)
  | some closeCol =>
    if w = 0 then (df, none)
    else
      let closes := closesOf closeCol
      let n := closes.length
      let sig := fun i => mrSignalAt closes w k i
      let varAt := fun i => (windowAt closes w i).bind sampleVar?
      let maAt := fun i => (windowAt closes w i).map meanQ
      let df1 := dfSet df "MA" (finCol ((List.range n).map maAt))
      let df2 := dfSet df1 "STD"
        ((List.range n).map (fun i => (varAt i).map (fun v => FVal.plusSqrt 0 1 v)))
      let df3 := dfSet df2 "Upper_Band"
        ((List.range n).map (fun i =>
          (maAt i).bind (fun m => (varAt i).map (fun v => FVal.plusSqrt m k v))))
      let df4 := dfSet df3 "Lower_Band"
        ((List.range n).map (fun i =>
          (maAt i).bind (fun m => (varAt i).map (fun v => FVal.plusSqrt m (-k) v))))
      let df5 := dfSet df4 "Signal" (finCol ((List.range n).map (fun i => some (sig i))))
      let df6 := dfSet df5 "Position" (finCol ((List.range n).map (posAt sig)))
      let df7 := dfSet df6 "Returns" (finCol ((List.range n).map (pctChangeAt closes 1)))
      let df8 := dfSet df7 "Strategy_Returns"
        (finCol ((List.range n).map (fun t => omul (posAt sig t) (pctChangeAt closes 1 t))))
      let df9 := dfSet df8 "Trades" (finCol (tradesColF sig n))
      let df10 := dfSet df9 "Commission"
        (finCol ((tradesColF sig n).map (Option.map (fun x => x * c))))
      let df11 := dfSet df10 "Strategy_Returns_Net" (finCol (netColF closes sig c))
      let df12 := dfSet df11 "Equity" (finCol (equityColF closes sig c cap))
      match runBacktestCore closes sig c cap with
      | none => (df12, none)
      | some res =>
        let df13 := dfSet df12 "Peak" (finCol (cummaxSkipAux none (equityColF closes sig c cap)))
        let df14 := dfSet df13 "Drawdown" (finCol res.drawdown_curve)
        (df14, some res)

/-- A bare price frame as a caller would supply it. -/
def mkCloseDF (closes : List ℚ) : DFrame :=
  [("Close", closes.map (fun x => some (FVal.fin x)))]

theorem dfGet_dfSet_ne (df : DFrame) (name : String) (col : List (Option FVal))
    (q : String) (h : ¬ name = q) : dfGet (dfSet df name col) q = dfGet df q := by
  induction df with
  | nil =>
    have hb : (q == name) = false := beq_eq_false_iff_ne.mpr (Ne.symm h)
    simp [dfSet, dfGet, List.lookup, hb]
  | cons hd rest ih =>
    by_cases hp : hd.1 = name
    · have hb : (q == hd.1) = false := by
        rw [hp]
        exact beq_eq_false_iff_ne.mpr (Ne.symm h)
      have hb' : (q == name) = false := beq_eq_false_iff_ne.mpr (Ne.symm h)
      simp [dfSet, dfGet, List.lookup, hp, hb, hb']
    · by_cases hq : q = hd.1
      · simp [dfSet, dfGet, List.lookup, hp, hq]
      · have hb : (q == hd.1) = false := beq_eq_false_iff_ne.mpr hq
        simp only [dfSet, if_neg hp]
        simp only [dfGet, List.lookup, hb]
        exact ih

theorem closesOf_mkCloseDF (closes : List ℚ) :
    closesOf (closes.map (fun x => some (FVal.fin x))) = closes := by
  induction closes with
  | nil => rfl
  | cons a t ih => exact congrArg (List.cons a) ih

/-- C3 counterexample: running the momentum backtest on a caller-supplied
price frame does not leave it unchanged — the source writes its derived
columns into the caller's DataFrame in place, so the frame that comes back
differs from the one passed in. -/
theorem backtest_mutates_input_cex :
    (backtest_momentum_strategy (mkCloseDF [1, 2, 4]) 2 100000 (1 / 1000)).1 ≠
      mkCloseDF [1, 2, 4] := by
  decide

/-- C3 amended: both backtests mutate the caller's frame by writing their
derived columns into it in place; however the Close column — the actual
caller-supplied price data — is never overwritten: its lookup is identical
before and after either backtest, for every input frame and parameter
choice. -/
theorem backtests_preserve_close (df : DFrame) (p w : ℕ) (k cap c : ℚ) :
    dfGet (backtest_momentum_strategy df p cap c).1 "Close" = dfGet df "Close" ∧
    dfGet (backtest_mean_reversion_strategy df w k cap c).1 "Close" = dfGet df "Close" := by
  constructor
  · unfold backtest_momentum_strategy
    split
    · rfl
    · dsimp only
      split
      · simp [dfGet_dfSet_ne]
      · simp [dfGet_dfSet_ne]
  · unfold backtest_mean_reversion_strategy
    split
    · rfl
    · split
      · rfl
      · dsimp only
        split
        · simp [dfGet_dfSet_ne]
        · simp [dfGet_dfSet_ne]

theorem length_cumprodSkipAux (acc : ℚ) (xs : List (Option ℚ)) :
    (cumprodSkipAux acc xs).length = xs.length := by
  induction xs generalizing acc with
  | nil => rfl
  | cons x xs ih =>
    cases x with
    | none => simp [cumprodSkipAux, ih]
    | some v => simp [cumprodSkipAux, ih]

theorem length_equityColF (closes : List ℚ) (sig : ℕ → ℚ) (c cap : ℚ) :
    (equityColF closes sig c cap).length = closes.length := by
  unfold equityColF netColF
  rw [List.length_map, length_cumprodSkipAux, List.length_map, List.length_map,
    List.length_range]

theorem runBacktestCore_win_rate (closes : List ℚ) (sig : ℕ → ℚ) (c cap : ℚ)
    (h : closes ≠ []) :
    (runBacktestCore closes sig c cap).map BTResults.win_rate =
      some (if 0 < countPos (tradesColF sig closes.length) then
              (countPos (netColF closes sig c) : ℚ) / countPos (tradesColF sig closes.length)
            else 0) := by
  have hne : equityColF closes sig c cap ≠ [] := by
    intro hempty
    apply h
    have := length_equityColF closes sig c cap
    rw [hempty] at this
    exact List.length_eq_zero.mp this.symm
  obtain ⟨e, he⟩ : ∃ e, (equityColF closes sig c cap).getLast? = some e := by
    cases hgl : (equityColF closes sig c cap).getLast? with
    | none => exact absurd (List.getLast?_eq_none_iff.mp hgl) hne
    | some e => exact ⟨e, rfl⟩
  unfold runBacktestCore
  simp only [he]
  rfl

theorem backtest_momentum_snd (df : DFrame) (p : ℕ) (cap c : ℚ) :
    (backtest_momentum_strategy df p cap c).2 =
      (dfGet df "Close").bind (fun col =>
        runBacktestCore (closesOf col) (fun i => momSignalAt (closesOf col) p i) c cap) := by
  unfold backtest_momentum_strategy
  cases dfGet df "Close" with
  | none => rfl
  | some col =>
    simp only [Option.some_bind]
    split
    · rename_i hrun
      exact hrun.symm
    · rename_i res hrun
      exact hrun.symm

theorem backtest_mr_snd (df : DFrame) (w : ℕ) (k cap c : ℚ) (hw : w ≠ 0) :
    (backtest_mean_reversion_strategy df w k cap c).2 =
      (dfGet df "Close").bind (fun col =>
        runBacktestCore (closesOf col) (fun i => mrSignalAt (closesOf col) w k i) c cap) := by
  unfold backtest_mean_reversion_strategy
  cases dfGet df "Close" with
  | none => rfl
  | some col =>
    simp only [Option.some_bind, if_neg hw]
    split
    · rename_i hrun
      exact hrun.symm
    · rename_i res hrun
      exact hrun.symm

/-- C5 counterexample: on the rising price series below the momentum
backtest reports win_rate = 5, which is greater than 1 — the numerator
counts every bar with a positive net return (five bars) while the
denominator counts only the bars with a nonzero trade (one bar), so
win_rate is not the claimed within-[0,1] fraction. -/
theorem win_rate_above_one_cex :
    (backtest_momentum_strategy (mkCloseDF [1, 2, 4, 8, 16, 32, 64, 128]) 2
        100000 (1 / 100)).2.map BTResults.win_rate = some 5 ∧ (1 : ℚ) < 5 := by
  constructor
  · decide
  · norm_num

/-- C5 amended: in every backtest result (momentum and mean-reversion),
win_rate equals the number of bars with a strictly positive net strategy
return — whether or not a trade occurred on that bar — divided by the
number of bars with a nonzero trade (0 when there are no trades); it is
therefore not bounded by 1. -/
theorem win_rate_formula (closes : List ℚ) (p w : ℕ) (k cap c : ℚ)
    (h : closes ≠ []) (hw : w ≠ 0) :
    (backtest_momentum_strategy (mkCloseDF closes) p cap c).2.map BTResults.win_rate =
      some (if 0 < countPos (tradesColF (fun i => momSignalAt closes p i) closes.length) then
              (countPos (netColF closes (fun i => momSignalAt closes p i) c) : ℚ) /
                countPos (tradesColF (fun i => momSignalAt closes p i) closes.length)
            else 0) ∧
    (backtest_mean_reversion_strategy (mkCloseDF closes) w k cap c).2.map BTResults.win_rate =
      some (if 0 < countPos (tradesColF (fun i => mrSignalAt closes w k i) closes.length) then
              (countPos (netColF closes (fun i => mrSignalAt closes w k i) c) : ℚ) /
                countPos (tradesColF (fun i => mrSignalAt closes w k i) closes.length)
            else 0) := by
  have hget : dfGet (mkCloseDF closes) "Close" = some (closes.map (fun x => some (FVal.fin x))) := by
    simp [mkCloseDF, dfGet, List.lookup]
  constructor
  · rw [backtest_momentum_snd, hget, Option.some_bind, closesOf_mkCloseDF]
    exact runBacktestCore_win_rate closes (fun i => momSignalAt closes p i) c cap h
  · rw [backtest_mr_snd _ _ _ _ _ hw, hget, Option.some_bind, closesOf_mkCloseDF]
    exact runBacktestCore_win_rate closes (fun i => mrSignalAt closes w k i) c cap h

/-- Witness for `win_rate_formula` at a concrete, non-degenerate input. -/
theorem win_rate_formula_w :
    (backtest_momentum_strategy (mkCloseDF [1, 2, 4]) 2 100000 (1 / 100)).2.map
        BTResults.win_rate =
      some (if 0 < countPos (tradesColF (fun i => momSignalAt [1, 2, 4] 2 i) 3) then
              (countPos (netColF [1, 2, 4] (fun i => momSignalAt [1, 2, 4] 2 i) (1 / 100)) : ℚ) /
                countPos (tradesColF (fun i => momSignalAt [1, 2, 4] 2 i) 3)
            else 0) :=
  (win_rate_formula [1, 2, 4] 2 2 2 100000 (1 / 100) (by decide) (by decide)).1

/-- Sharpe ratio of RiskAgent.calculate_portfolio_risk (risk_agent.py line
127): `portfolio_returns.mean() / portfolio_returns.std() * np.sqrt(252)`,
computed with no zero-volatility guard. `undef` covers every non-finite
float outcome: std NaN (fewer than two observations) or std exactly 0
(float division by zero produces ±inf or NaN). Otherwise the finite value
`mean/√variance·√252` is carried by its defining pair. -/
inductive SharpeVal where
  | undef : SharpeVal
  | finiteData (mean variance : ℚ) : SharpeVal
deriving DecidableEq

/-- Portfolio return series `(returns * weights).sum(axis = 1)` for a
row-major table of clean (already `dropna`-ed) returns. -/
def portfolioReturns (weights : List ℚ) (rows : List (List ℚ)) : List ℚ :=
  rows.map (fun r => (List.zipWith (fun w x => w * x) weights r).sum)

/-- Cumulative product of a clean series. -/
def cumprodClean (acc : ℚ) : List ℚ → List ℚ
  | [] => []
  | x :: xs => (acc * x) :: cumprodClean (acc * x) xs

/-- Running maximum (`expanding().max()`) of a clean series. -/
def runningMax : Option ℚ → List ℚ → List ℚ
  | _, [] => []
  | none, x :: xs => x :: runningMax (some x) xs
  | some a, x :: xs => max a x :: runningMax (some (max a x)) xs

/-- RiskAgent.calculate_portfolio_risk result bundle; the annualised
volatility `std·√252` is carried squared in `volSq` (`none` for NaN). -/
structure PortRisk where
  volSq : Option ℚ
  var_95 : ℚ
  es_95 : Option ℚ
  max_drawdown : Option ℚ
  sharpe : SharpeVal
deriving DecidableEq

/-- RiskAgent.calculate_portfolio_risk (risk_agent.py lines 89-134): with
`k` asset columns and optional weights (equal weights when omitted),
compute the weighted portfolio return series and its risk metrics. The
`ppf` argument of `calculate_var` is irrelevant here because the method is
the default "historical". Expected shortfall is the mean of the returns at
or below the historical VaR (NaN when no return qualifies or the series is
empty — pandas mean of an empty selection — not an exception). Drawdown
divides by the running peak; a zero peak is a non-finite float, `none`. -/
def calculate_portfolio_risk (k : ℕ) (rows : List (List ℚ))
    (weights? : Option (List ℚ)) : PortRisk :=
  let w := match weights? with
    | some ws => ws
    | none => List.replicate k (1 / (k : ℚ))
  let pr := portfolioReturns w rows
  let var95 := calculate_var (fun _ _ _ => 0) pr (95 / 100) "historical"
  let cum := cumprodClean 1 (pr.map (fun r => 1 + r))
  let peak := runningMax none cum
  let dd := List.zipWith (fun cml pk => if pk = 0 then none else some ((cml - pk) / pk)) cum peak
  { volSq := (sampleVar? pr).map (fun v => 252 * v)
    var_95 := var95
    es_95 := mean? (pr.filter (fun r => decide (r ≤ var95)))
    max_drawdown := minSkip dd
    sharpe :=
      match sampleVar? pr with
      | none => SharpeVal.undef
      | some v => if v = 0 then SharpeVal.undef else SharpeVal.finiteData (meanQ pr) v }

/-- C4 counterexample: a portfolio whose return series is constant has
annualised volatility exactly 0, yet the RiskEngine's Sharpe ratio is not
the claimed 0 — the unguarded `mean/std·√252` divides by zero and yields a
non-finite float (`undef`), so the zero-substitution policy does not hold
uniformly across Backtester and RiskEngine. -/
theorem portfolio_sharpe_zero_vol_cex :
    (calculate_portfolio_risk 1 [[1 / 100], [1 / 100], [1 / 100]] none).volSq = some 0 ∧
    (calculate_portfolio_risk 1 [[1 / 100], [1 / 100], [1 / 100]] none).sharpe = SharpeVal.undef := by
  constructor
  · decide
  · decide

theorem runBacktestCore_sharpe_zero (closes : List ℚ) (sig : ℕ → ℚ) (c cap : ℚ)
    (res : BTResults) (hrun : runBacktestCore closes sig c cap = some res)
    (hv : res.volSq = some 0) : res.sharpe = SharpeBT.zero := by
  unfold runBacktestCore at hrun
  dsimp only at hrun
  cases hgl : (equityColF closes sig c cap).getLast? with
  | none =>
    rw [hgl] at hrun
    exact absurd hrun (by simp)
  | some e =>
    rw [hgl] at hrun
    dsimp only at hrun
    injection hrun with hrun
    subst hrun
    obtain ⟨v, hsv, hv0⟩ := Option.map_eq_some'.mp hv
    show (match Option.map (fun v => 252 * v) (sampleVar? (netColF closes sig c).reduceOption) with
      | none => SharpeBT.undef
      | some v => if v = 0 then SharpeBT.zero
          else SharpeBT.ofData
            (e.bind fun x => if cap = 0 then none else some (x / cap - 1)) closes.length v) =
      SharpeBT.zero
    simp [hsv, hv0]

/-- C4 amended: the zero-volatility Sharpe policy is inconsistent across
components. The Backtester (both strategies) guards the division and
substitutes 0 whenever the annualised volatility of net strategy returns
is exactly 0; the RiskEngine's portfolio bundle computes
`mean/std·√252` unguarded, so zero portfolio volatility always produces a
non-finite Sharpe (NaN or ±infinity), never the claimed 0. -/
theorem sharpe_zero_vol_policy (closes : List ℚ) (p w : ℕ) (k cap c : ℚ)
    (kk : ℕ) (rows : List (List ℚ)) (weights? : Option (List ℚ)) :
    ((backtest_momentum_strategy (mkCloseDF closes) p cap c).2.map BTResults.volSq =
        some (some 0) →
      (backtest_momentum_strategy (mkCloseDF closes) p cap c).2.map BTResults.sharpe =
        some SharpeBT.zero) ∧
    ((backtest_mean_reversion_strategy (mkCloseDF closes) w k cap c).2.map BTResults.volSq =
        some (some 0) →
      (backtest_mean_reversion_strategy (mkCloseDF closes) w k cap c).2.map BTResults.sharpe =
        some SharpeBT.zero) ∧
    ((calculate_portfolio_risk kk rows weights?).volSq = some 0 →
      (calculate_portfolio_risk kk rows weights?).sharpe = SharpeVal.undef) := by
  refine ⟨?_, ?_, ?_⟩
  · intro hv
    cases hres : (backtest_momentum_strategy (mkCloseDF closes) p cap c).2 with
    | none => rw [hres] at hv; exact absurd hv (by simp)
    | some res =>
      rw [hres] at hv
      simp only [Option.map_some', Option.some_inj] at hv
      simp only [Option.map_some', Option.some_inj]
      rw [backtest_momentum_snd] at hres
      obtain ⟨col, hcol, hrun⟩ := Option.bind_eq_some.mp hres
      exact runBacktestCore_sharpe_zero _ _ _ _ _ hrun hv
  · intro hv
    by_cases hw : w = 0
    · subst hw
      have : (backtest_mean_reversion_strategy (mkCloseDF closes) 0 k cap c).2 = none := by
        unfold backtest_mean_reversion_strategy
        simp [mkCloseDF, dfGet, List.lookup]
      rw [this] at hv
      exact absurd hv (by simp)
    · cases hres : (backtest_mean_reversion_strategy (mkCloseDF closes) w k cap c).2 with
      | none => rw [hres] at hv; exact absurd hv (by simp)
      | some res =>
        rw [hres] at hv
        simp only [Option.map_some', Option.some_inj] at hv
        simp only [Option.map_some', Option.some_inj]
        rw [backtest_mr_snd _ _ _ _ _ hw] at hres
        obtain ⟨col, hcol, hrun⟩ := Option.bind_eq_some.mp hres
        exact runBacktestCore_sharpe_zero _ _ _ _ _ hrun hv
  · intro hv
    unfold calculate_portfolio_risk at hv ⊢
    simp only at hv ⊢
    obtain ⟨v, hsv, hv0⟩ := Option.map_eq_some'.mp hv
    have : v = 0 := by linarith [mul_eq_zero.mp hv0]
    rw [hsv, this]
    simp

/-- Witness for `sharpe_zero_vol_policy`: a constant price series gives
the momentum backtest zero net-return volatility and Sharpe 0, while the
constant-return portfolio gets an undefined Sharpe. -/
theorem sharpe_zero_vol_policy_w :
    (backtest_momentum_strategy (mkCloseDF [1, 1, 1, 1]) 2 100000 (1 / 1000)).2.map
        BTResults.sharpe = some SharpeBT.zero ∧
    (calculate_portfolio_risk 1 [[2 / 100], [2 / 100]] none).sharpe = SharpeVal.undef :=
  ⟨(sharpe_zero_vol_policy [1, 1, 1, 1] 2 2 2 100000 (1 / 1000) 1 [[2 / 100], [2 / 100]]
      none).1 (by decide),
   (sharpe_zero_vol_policy [1, 1, 1, 1] 2 2 2 100000 (1 / 1000) 1 [[2 / 100], [2 / 100]]
      none).2.2 (by decide)⟩

/-- Per-bar gain of PlayAgent._calculate_rsi (play_agent.py line 148):
`delta.where(delta > 0, 0)`. The NaN first delta compares false and is
replaced by 0 by `where`. -/
def gainAt (prices : List ℚ) (j : ℕ) : ℚ :=
  if j = 0 then 0
  else
    match prices[j - 1]?, prices[j]? with
    | some a, some b => max (b - a) 0
    | _, _ => 0

/-- Per-bar loss (play_agent.py line 149): `(-delta).where(delta < 0, 0)`. -/
def lossAt (prices : List ℚ) (j : ℕ) : ℚ :=
  if j = 0 then 0
  else
    match prices[j - 1]?, prices[j]? with
    | some a, some b => max (a - b) 0
    | _, _ => 0

/-- Rolling mean of the gain series over window `w` ending at bar `i`
(`rolling(window = w).mean()`): NaN before `w` observations. -/
def rollingGainAvg (prices : List ℚ) (w i : ℕ) : Option ℚ :=
  if w ≤ i + 1 ∧ i < prices.length ∧ 1 ≤ w then
    some (((List.range w).map (fun d => gainAt prices (i + 1 - w + d))).sum / w)
  else none

/-- Rolling mean of the loss series over window `w` ending at bar `i`. -/
def rollingLossAvg (prices : List ℚ) (w i : ℕ) : Option ℚ :=
  if w ≤ i + 1 ∧ i < prices.length ∧ 1 ≤ w then
    some (((List.range w).map (fun d => lossAt prices (i + 1 - w + d))).sum / w)
  else none

/-- PlayAgent._calculate_rsi (play_agent.py lines 145-151) at bar `i`:
`rs = avg_gain / avg_loss; rsi = 100 - 100/(1+rs)`. Float semantics of the
zero-loss window: `avg_loss = 0` with `avg_gain > 0` gives `rs = +inf` and
the expression evaluates to exactly 100.0; a flat window gives
`rs = 0/0 = NaN`, so the RSI is NaN (`none`), not 100. -/
def rsiAt (prices : List ℚ) (w i : ℕ) : Option ℚ :=
  match rollingGainAvg prices w i, rollingLossAvg prices w i with
  | some g, some l =>
    if l = 0 then (if g = 0 then none else some 100)
    else some (100 - 100 / (1 + g / l))
  | _, _ => none

/-- C6 counterexample: on a constant 15-bar price series with the default
14-bar window, the rolling average loss at bar 13 is exactly 0, yet the
RSI is NaN (the average gain is also 0, so `rs = 0/0`), not the claimed
clamped 100. -/
theorem rsi_zero_loss_cex :
    rollingLossAvg (List.replicate 15 1) 14 13 = some 0 ∧
    rsiAt (List.replicate 15 1) 14 13 = none := by
  constructor
  · decide
  · decide

/-- C6 amended: when the rolling average loss over the window is exactly
0, the RSI is 100 only if the rolling average gain of the same window is
nonzero (the division produces +infinity and `100 - 100/(1+inf)` is
exactly 100); when the window is entirely flat (average gain also 0) the
RSI is NaN, not a clamped 100. -/
theorem rsi_zero_loss_policy (prices : List ℚ) (w i : ℕ)
    (hl : rollingLossAvg prices w i = some 0) :
    (rollingGainAvg prices w i = some 0 → rsiAt prices w i = none) ∧
    (∀ g, rollingGainAvg prices w i = some g → g ≠ 0 → rsiAt prices w i = some 100) := by
  constructor
  · intro hg
    simp [rsiAt, hg, hl]
  · intro g hg hgne
    simp [rsiAt, hg, hl, hgne]

/-- Witness for `rsi_zero_loss_policy` on a strictly rising series. -/
theorem rsi_zero_loss_policy_w :
    rsiAt [1, 2, 3, 4, 5, 6, 7, 8, 9, 10, 11, 12, 13, 14, 15] 14 14 = some 100 :=
  (rsi_zero_loss_policy [1, 2, 3, 4, 5, 6, 7, 8, 9, 10, 11, 12, 13, 14, 15] 14 14
      (by decide)).2 1 (by decide) (by decide)

/-- Sample mean of a column of an aligned table, `Fin`-indexed. -/
def finMean (m : ℕ) (x : Fin m → ℚ) : ℚ := (∑ t, x t) / m

/-- Sample covariance with ddof = 1 (pandas `Series.cov`); the `m ≤ 1`
degenerate case divides by zero (pandas would give NaN) and never arises
under the theorems' hypotheses. -/
def finCov (m : ℕ) (x y : Fin m → ℚ) : ℚ :=
  (∑ t, (x t - finMean m x) * (y t - finMean m y)) / ((m : ℚ) - 1)

/-- Portfolio return series `(returns * weights).sum(axis = 1)` over an
aligned table of `k` asset columns of length `m`. -/
def portfolioCombo (k m : ℕ) (R : Fin k → Fin m → ℚ) (w : Fin k → ℚ) : Fin m → ℚ :=
  fun t => ∑ j, w j * R j t

/-- Marginal risk contribution of asset `j`
(risk_agent.py lines 247-254): `w_j · cov(returns_j, portfolio) / σ`,
where `σ` is the portfolio volatility `std·√252`. Being irrational in
general, `σ` is taken as a parameter, pinned to its source value by the
hypothesis `σ² = 252·var(portfolio)` of the theorems. -/
def marginalContrib (k m : ℕ) (R : Fin k → Fin m → ℚ) (w : Fin k → ℚ) (σ : ℚ)
    (j : Fin k) : ℚ :=
  w j * finCov m (R j) (portfolioCombo k m R w) / σ

/-- Normalised percentage risk contribution (risk_agent.py lines 256-261):
each marginal contribution divided by their total; no clamping of negative
values anywhere. -/
def riskContribFrac (k m : ℕ) (R : Fin k → Fin m → ℚ) (w : Fin k → ℚ) (σ : ℚ)
    (j : Fin k) : ℚ :=
  marginalContrib k m R w σ j / (∑ i, marginalContrib k m R w σ i)

theorem finMean_combo (k m : ℕ) (R : Fin k → Fin m → ℚ) (w : Fin k → ℚ) :
    finMean m (portfolioCombo k m R w) = ∑ j, w j * finMean m (R j) := by
  unfold finMean portfolioCombo
  rw [Finset.sum_comm, Finset.sum_div]
  exact Finset.sum_congr rfl (fun j _ => by rw [← Finset.mul_sum, mul_div_assoc])

theorem finCov_combo (k m : ℕ) (R : Fin k → Fin m → ℚ) (w : Fin k → ℚ)
    (y : Fin m → ℚ) :
    finCov m (portfolioCombo k m R w) y = ∑ j, w j * finCov m (R j) y := by
  unfold finCov
  have hnum : ∀ t, (portfolioCombo k m R w t - finMean m (portfolioCombo k m R w)) *
      (y t - finMean m y) =
      ∑ j, w j * ((R j t - finMean m (R j)) * (y t - finMean m y)) := by
    intro t
    rw [finMean_combo]
    have : portfolioCombo k m R w t - ∑ j, w j * finMean m (R j) =
        ∑ j, w j * (R j t - finMean m (R j)) := by
      unfold portfolioCombo
      rw [← Finset.sum_sub_distrib]
      exact Finset.sum_congr rfl (fun j _ => by ring)
    rw [this, Finset.sum_mul]
    exact Finset.sum_congr rfl (fun j _ => by ring)
  calc (∑ t, (portfolioCombo k m R w t - finMean m (portfolioCombo k m R w)) *
          (y t - finMean m y)) / ((m : ℚ) - 1)
      = (∑ t, ∑ j, w j * ((R j t - finMean m (R j)) * (y t - finMean m y))) /
          ((m : ℚ) - 1) := by
        congr 1
        exact Finset.sum_congr rfl (fun t _ => hnum t)
    _ = (∑ j, ∑ t, w j * ((R j t - finMean m (R j)) * (y t - finMean m y))) /
          ((m : ℚ) - 1) := by rw [Finset.sum_comm]
    _ = ∑ j, w j * ((∑ t, (R j t - finMean m (R j)) * (y t - finMean m y)) /
          ((m : ℚ) - 1)) := by
        rw [Finset.sum_div]
        exact Finset.sum_congr rfl (fun j _ => by rw [← Finset.mul_sum, mul_div_assoc])

/-- C7: for every aligned table of asset return series, every weight
vector summing to 1, and every (positive) portfolio volatility
`σ = √(252·var(portfolio))` — nonzero volatility being the claim's
hypothesis — the normalised risk-contribution fractions sum to exactly 1,
and a negative marginal contribution yields a negative fraction: nothing
is clamped to zero. -/
theorem risk_contributions_sum_to_one (k m : ℕ) (R : Fin k → Fin m → ℚ)
    (w : Fin k → ℚ) (σ : ℚ) (hσ : 0 < σ)
    (hσ2 : σ ^ 2 = 252 *
      finCov m (portfolioCombo k m R w) (portfolioCombo k m R w))
    (hw : ∑ j, w j = 1) :
    (∑ j, riskContribFrac k m R w σ j = 1) ∧
    (∀ j, marginalContrib k m R w σ j < 0 → riskContribFrac k m R w σ j < 0) := by
  have hvar : 0 < finCov m (portfolioCombo k m R w) (portfolioCombo k m R w) := by
    nlinarith [pow_pos hσ 2]
  have htotal : ∑ i, marginalContrib k m R w σ i =
      finCov m (portfolioCombo k m R w) (portfolioCombo k m R w) / σ := by
    unfold marginalContrib
    rw [← Finset.sum_div]
    congr 1
    exact (finCov_combo k m R w (portfolioCombo k m R w)).symm
  have htpos : 0 < ∑ i, marginalContrib k m R w σ i := by
    rw [htotal]
    exact div_pos hvar hσ
  constructor
  · unfold riskContribFrac
    rw [← Finset.sum_div]
    exact div_self (ne_of_gt htpos)
  · intro j hneg
    unfold riskContribFrac
    exact div_neg_of_neg_of_pos hneg htpos

/-- Witness for `risk_contributions_sum_to_one`: a single asset with
return series (1, 2, -3) has variance 7, making the annualised portfolio
volatility the rational number √(252·7) = 42. -/
theorem risk_contributions_sum_to_one_w :
    ∑ j, riskContribFrac 1 3 (fun _ => ![1, 2, -3]) (fun _ => 1) 42 j = 1 :=
  (risk_contributions_sum_to_one 1 3 (fun _ => ![1, 2, -3]) (fun _ => 1) 42
      (by norm_num) (by decide) (by decide)).1

/-- A recommendation entry as assembled by
PlayAgent.generate_trade_recommendations (play_agent.py lines 100-110).
The annualised volatility `std·√252` is stored squared in `volSq` (`none`
for NaN); every use the source makes of it (thresholds, sort order,
position sizing) is monotone in the square. -/
structure RecEntry where
  ticker : String
  action : String
  why : String
  price : ℚ
  volSq : Option ℚ
  beta : Option ℚ
  rsi : Option ℚ
  momSig : ℚ
  mrSig : ℚ
deriving DecidableEq

/-- First sort-key component (play_agent.py line 116):
`1 if action == 'BUY' else 0`. -/
def buyRank (r : RecEntry) : ℕ := if r.action = "BUY" then 1 else 0

/-- Second sort-key component (line 117): `-volatility` under low risk
tolerance, `volatility` otherwise, ordered through the squared volatility,
in which the float key is monotone (`volSq_order_sound`). Entries reaching
this sort always carry a defined volatility — a nonzero signal needs at
least 14 bars of history, which also defines the volatility
(`processSymbol_vol_defined`) — so the NaN fallback is never exercised on
the loop's output. -/
def volKey (tol : String) (r : RecEntry) : ℚ :=
  if tol = "low" then -(r.volSq.getD 0) else r.volSq.getD 0

/-- Lexicographic `<` on the Python key tuple. -/
def pyLtKey (tol : String) (a b : RecEntry) : Bool :=
  decide (buyRank a < buyRank b) ||
    (decide (buyRank a = buyRank b) && decide (volKey tol a < volKey tol b))

/-- Python's `sorted(recs, key = ..., reverse = True)[:max_positions]`
(play_agent.py lines 113-120): CPython realises `reverse = True` by
reversing, stable-sorting ascending, and reversing again; then the list is
truncated. -/
def sortRecommendations (tol : String) (maxP : ℕ) (recs : List RecEntry) :
    List RecEntry :=
  (((recs.reverse).mergeSort (fun a b => !(pyLtKey tol b a))).reverse).take maxP

theorem pyLt_eq_false_iff (tol : String) (a b : RecEntry) :
    pyLtKey tol a b = false ↔
      (buyRank b ≤ buyRank a ∧
        (buyRank a = buyRank b → volKey tol b ≤ volKey tol a)) := by
  simp only [pyLtKey, Bool.or_eq_false_iff, Bool.and_eq_false_iff,
    decide_eq_false_iff_not, not_lt]
  constructor
  · rintro ⟨h1, h2⟩
    exact ⟨h1, fun he => h2.elim (fun hne => absurd he hne) id⟩
  · rintro ⟨h1, h2⟩
    by_cases he : buyRank a = buyRank b
    · exact ⟨h1, Or.inr (h2 he)⟩
    · exact ⟨h1, Or.inl he⟩

theorem pyLt_le_trans (tol : String) (a b c : RecEntry)
    (hba : (!(pyLtKey tol b a)) = true) (hcb : (!(pyLtKey tol c b)) = true) :
    (!(pyLtKey tol c a)) = true := by
  rw [Bool.not_eq_true', pyLt_eq_false_iff] at hba hcb ⊢
  obtain ⟨hr1, hk1⟩ := hba
  obtain ⟨hr2, hk2⟩ := hcb
  refine ⟨le_trans hr1 hr2, fun he => ?_⟩
  have h1 : buyRank b = buyRank a := by omega
  have h2 : buyRank c = buyRank b := by omega
  exact le_trans (hk1 h1) (hk2 h2)

theorem pyLt_le_total (tol : String) (a b : RecEntry) :
    ((!(pyLtKey tol b a)) || (!(pyLtKey tol a b))) = true := by
  rw [Bool.or_eq_true, Bool.not_eq_true', Bool.not_eq_true',
    pyLt_eq_false_iff, pyLt_eq_false_iff]
  rcases Nat.lt_trichotomy (buyRank a) (buyRank b) with h | h | h
  · exact Or.inl ⟨le_of_lt h, fun he => absurd he (by omega)⟩
  · rcases le_total (volKey tol a) (volKey tol b) with hk | hk
    · exact Or.inl ⟨le_of_eq h, fun _ => hk⟩
    · exact Or.inr ⟨le_of_eq h.symm, fun _ => hk⟩
  · exact Or.inr ⟨le_of_lt h, fun he => absurd he (by omega)⟩

/-- C8: for every risk-tolerance setting, position cap and list of built
recommendation entries, the output of the ranking step has every BUY
before every SELL; among entries with the same action the volatilities
are ascending under low risk tolerance and descending otherwise; and the
list is truncated to at most max_positions entries. -/
theorem recommendations_sorted (tol : String) (maxP : ℕ) (recs : List RecEntry) :
    (sortRecommendations tol maxP recs).length ≤ maxP ∧
    (sortRecommendations tol maxP recs).Pairwise (fun a b =>
      (¬(a.action = "SELL" ∧ b.action = "BUY")) ∧
      (a.action = b.action → ∀ va vb, a.volSq = some va → b.volSq = some vb →
        ((tol = "low" → va ≤ vb) ∧ (tol ≠ "low" → vb ≤ va)))) := by
  constructor
  · unfold sortRecommendations
    exact List.length_take_le maxP _
  · have hsorted := List.sorted_mergeSort
      (fun a b c hab hbc => pyLt_le_trans tol a b c hab hbc)
      (fun a b => pyLt_le_total tol a b) (recs.reverse)
    have hrev : ((recs.reverse).mergeSort (fun a b => !(pyLtKey tol b a))).reverse.Pairwise
        (fun a b => (!(pyLtKey tol a b)) = true) :=
      List.pairwise_reverse.mpr hsorted
    have htake := List.Pairwise.sublist (List.take_sublist maxP _) hrev
    unfold sortRecommendations
    refine htake.imp ?_
    intro a b hab
    rw [Bool.not_eq_true', pyLt_eq_false_iff] at hab
    obtain ⟨hrank, hkey⟩ := hab
    constructor
    · rintro ⟨hsell, hbuy⟩
      simp [buyRank, hsell, hbuy] at hrank
    · intro hact va vb hva hvb
      have hr : buyRank a = buyRank b := by simp [buyRank, hact]
      have hk : volKey tol b ≤ volKey tol a := hkey hr
      constructor
      · intro hlow
        simp only [volKey, if_pos hlow, hva, hvb, Option.getD_some] at hk
        linarith
      · intro hnotlow
        have : ¬ tol = "low" := hnotlow
        simp only [volKey, if_neg this, hva, hvb, Option.getD_some] at hk
        exact hk

/-- Witness for `recommendations_sorted` at a concrete entry list. -/
theorem recommendations_sorted_w :
    (sortRecommendations "low" 2
      [{ ticker := "A", action := "BUY", why := "", price := 1, volSq := some 4,
         beta := none, rsi := none, momSig := 1, mrSig := 0 },
       { ticker := "B", action := "SELL", why := "", price := 2, volSq := some 1,
         beta := none, rsi := none, momSig := -1, mrSig := 0 },
       { ticker := "C", action := "BUY", why := "", price := 3, volSq := some 9,
         beta := none, rsi := none, momSig := 1, mrSig := 1 }]).length ≤ 2 :=
  (recommendations_sorted "low" 2 _).1

/-- One symbol's price data as the multi-asset entry points consume it:
the Close and Volume columns of its DataFrame (`len(data)` is the row
count, i.e. the length of the Close column). -/
structure Frame where
  close : List ℚ
  volume : List ℚ
deriving DecidableEq

/-- Running maximum over the trailing `lb` rows
(`rolling(window = lb, min_periods = 1).max()`), defined for every row of
a nonempty series. -/
def rollingMaxAt (closes : List ℚ) (lb i : ℕ) : Option ℚ :=
  ((closes.take (i + 1)).drop (i + 1 - lb)).foldl
    (fun acc x => match acc with | none => some x | some a => some (max a x)) none

/-- Per-stock analysis record of ResearchAgent.analyze_universe
(research_agent.py lines 53-87). Irrational floats are carried by their
defining rational data: `volSq` is the squared annualised volatility,
`sharpe` the mean/variance pair, `volumeVar` the squared volume std.
`fundamentals` holds the values of the external `get_stock_info`
collaborator, abstracted as a function parameter. -/
structure StockAnalysis (I : Type) where
  dailyMean : Option ℚ
  dailyVar : Option ℚ
  volSq : Option ℚ
  sharpe : SharpeVal
  maxDD : Option ℚ
  avgVolume : Option ℚ
  volumeVar : Option ℚ
  fundamentals : I

/-- The per-symbol body of analyze_universe: returns, annualised
volatility, Sharpe, rolling-peak drawdown, volume statistics. -/
def mkStockAnalysis {I : Type} (info : String → I) (lb : ℕ) (t : String)
    (d : Frame) : StockAnalysis I :=
  let closes := d.close
  let rets := ((List.range closes.length).map (pctChangeAt closes 1)).reduceOption
  { dailyMean := mean? rets
    dailyVar := sampleVar? rets
    volSq := (sampleVar? rets).map (fun v => 252 * v)
    sharpe :=
      match sampleVar? rets with
      | none => SharpeVal.undef
      | some v => if v = 0 then SharpeVal.undef else SharpeVal.finiteData (meanQ rets) v
    maxDD := minSkip ((List.range closes.length).map (fun i =>
      match rollingMaxAt closes lb i with
      | some m => if m = 0 then none else some ((closes.getD i 0 - m) / m)
      | none => none))
    avgVolume := mean? d.volume
    volumeVar := sampleVar? d.volume
    fundamentals := info t }

/-- ResearchAgent.analyze_universe (research_agent.py lines 30-93): the
loop skips any symbol with fewer rows than the lookback period
(`continue`, after only a log line — nothing about the skip is recorded in
the returned mapping) and analyses the rest. -/
def analyzeUniverse {I : Type} (info : String → I) (u : List (String × Frame))
    (lb : ℕ) : List (String × StockAnalysis I) :=
  u.filterMap (fun p =>
    if p.2.close.length < lb then none
    else some (p.1, mkStockAnalysis info lb p.1 p.2))

/-- Sample covariance of paired observations with ddof = 1, as
`Series.cov` computes over the pairwise-complete index intersection;
NaN below two pairs. -/
def sampleCovPairs? (ps : List (ℚ × ℚ)) : Option ℚ :=
  if ps.length < 2 then none
  else
    some ((ps.map (fun p => (p.1 - meanQ (ps.map Prod.fst)) *
      (p.2 - meanQ (ps.map Prod.snd)))).sum / ((ps.length : ℚ) - 1))

/-- RiskAgent.calculate_beta (risk_agent.py lines 157-182):
`asset.cov(market) / market.var()`. The asset series is indexed by bar
number with NaN entries; the market proxy lives on the kept (dropna-ed)
row indexes. `none` models every non-finite float outcome (NaN covariance
or variance, and the ±inf/NaN of a zero market variance). -/
def betaQ (asset : List (Option ℚ)) (market : List (ℕ × ℚ)) : Option ℚ :=
  let pairs := market.filterMap (fun pm => (asset.getD pm.1 none).map (fun a => (a, pm.2)))
  match sampleCovPairs? pairs, sampleVar? (market.map Prod.snd) with
  | some cv, some mv => if mv = 0 then none else some (cv / mv)
  | _, _ => none

/-- PlayAgent._generate_momentum_signal (play_agent.py lines 153-159):
compare the last close against the last MA20 and MA50; NaN moving
averages (too little history) compare false, giving 0. The caller has
already ruled out the empty frame, where `iloc[-1]` raises. -/
def momSignalPlay (closes : List ℚ) : ℚ :=
  match closes.getLast?, (windowAt closes 20 (closes.length - 1)).map meanQ,
      (windowAt closes 50 (closes.length - 1)).map meanQ with
  | some c, some ma20, some ma50 =>
    if ma20 < c ∧ ma50 < ma20 then 1
    else if c < ma20 ∧ ma20 < ma50 then -1
    else 0
  | _, _, _ => 0

/-- PlayAgent._generate_mean_reversion_signal (lines 161-168) on the last
RSI value; a NaN RSI compares false on both thresholds. -/
def mrSignalPlay (closes : List ℚ) : ℚ :=
  match rsiAt closes 14 (closes.length - 1) with
  | some r => if r < 30 then 1 else if 70 < r then -1 else 0
  | none => 0

/-- Annualised volatility (squared) of a symbol's daily returns
(play_agent.py line 83). -/
def playVolSq (closes : List ℚ) : Option ℚ :=
  (sampleVar? (((List.range closes.length).map (pctChangeAt closes 1)).reduceOption)).map
    (fun v => 252 * v)

/-- Volatility threshold test `vol > c` through the squared volatility
(`c ≥ 0`, see `volGtThresh_iff`); NaN compares false. -/
def volGtThresh (v? : Option ℚ) (c : ℚ) : Bool :=
  match v? with | some v => decide (c ^ 2 < v) | none => false

/-- Volatility threshold test `vol < c` through the squared volatility
(see `volLtThresh_iff`). -/
def volLtThresh (v? : Option ℚ) (c : ℚ) : Bool :=
  match v? with | some v => decide (v < c ^ 2) | none => false

/-- Beta threshold test `beta < c`; a non-finite beta compares false. -/
def betaLtThresh (b? : Option ℚ) (c : ℚ) : Bool :=
  match b? with | some b => decide (b < c) | none => false

/-- Beta threshold test `beta > c`. -/
def betaGtThresh (b? : Option ℚ) (c : ℚ) : Bool :=
  match b? with | some b => decide (c < b) | none => false

/-- PlayAgent._determine_recommendation (play_agent.py lines 170-199):
combine the signals, apply the risk-tolerance and horizon gates
(if/elif chains), and decide BUY/SELL/HOLD with the rationale string. -/
def determineRec (ms mrs : ℚ) (volSq : Option ℚ) (beta : Option ℚ)
    (tol hor : String) : String × String :=
  let cs0 := ms + mrs
  let cs1 :=
    if tol = "low" ∧ volGtThresh volSq (3 / 10) = true then 0
    else if tol = "high" ∧ volLtThresh volSq (1 / 10) = true then 0
    else cs0
  let cs2 :=
    if hor = "short" ∧ betaLtThresh beta (4 / 5) = true then 0
    else if hor = "long" ∧ betaGtThresh beta (6 / 5) = true then 0
    else cs1
  if 1 ≤ cs2 then ("BUY", "Strong buy signal from multiple indicators")
  else if cs2 ≤ -1 then ("SELL", "Strong sell signal from multiple indicators")
  else ("HOLD", "Neutral or conflicting signals")

/-- Value of `min(adjusted_risk / volatility, 1.0)`
(PlayAgent._calculate_position_size, lines 201-218): `undef` for a NaN
volatility (the min propagates NaN), `one` when the ratio reaches the cap
— including zero volatility, where `adj/0.0 = +inf` — and otherwise the
fraction `adj/√volSq < 1` carried by its data (`adj ≥ 0` as
risk_per_trade is a positive setting scaled by positive factors; the cap
test is justified by `posSize_cap_sound`). -/
inductive PosSize where
  | undef : PosSize
  | one : PosSize
  | frac (adj volSq : ℚ) : PosSize
deriving DecidableEq

/-- PlayAgent._calculate_position_size. -/
def calcPositionSize (volSq? : Option ℚ) (tol : String) (rpt : ℚ) : PosSize :=
  let adj := if tol = "low" then rpt * (1 / 2)
    else if tol = "high" then rpt * (3 / 2)
    else rpt
  match volSq? with
  | none => PosSize.undef
  | some v =>
    if v = 0 then PosSize.one
    else if v ≤ adj ^ 2 then PosSize.one
    else PosSize.frac adj v

/-- Loop body of generate_trade_recommendations for one symbol
(play_agent.py lines 68-110). `get_stock_info` (line 70) is the external
data collaborator, its result unused by the loop; the in-place indicator
columns written into the caller's frame (lines 73-76) are the mutation
covered by the C3 analysis. The only exception source is
`Close.iloc[-1]` inside `_generate_momentum_signal`, which raises
IndexError on an empty frame; `Except.error` models it escaping to the
caller's handler. -/
def processSymbol (marketProxy : List (ℕ × ℚ)) (tol hor : String) (t : String)
    (d : Frame) : Except Unit (Option RecEntry) :=
  let closes := d.close
  match closes.getLast? with
  | none => Except.error ()
  | some lastClose =>
    let ms := momSignalPlay closes
    let mrs := mrSignalPlay closes
    let vq := playVolSq closes
    let b := betaQ ((List.range closes.length).map (pctChangeAt closes 1)) marketProxy
    let dec := determineRec ms mrs vq b tol hor
    if dec.1 = "HOLD" then Except.ok none
    else Except.ok (some {
      ticker := t, action := dec.1, why := dec.2, price := lastClose,
      volSq := vq, beta := b,
      rsi := rsiAt closes 14 (closes.length - 1),
      momSig := ms, mrSig := mrs })

/-- The per-ticker return columns of the shared returns DataFrame
(play_agent.py lines 58-60). -/
def returnsCols (u : List (String × Frame)) : List (List (Option ℚ)) :=
  u.map (fun p => (List.range p.2.close.length).map (pctChangeAt p.2.close 1))

/-- The `returns.dropna()` table (line 61): keep exactly the row indexes at
which every ticker's return is defined, remembering the original indexes
(the DataFrame keeps its index labels). -/
def dropnaRows (cols : List (List (Option ℚ))) : List (ℕ × List ℚ) :=
  (List.range ((cols.map List.length).foldr max 0)).filterMap (fun t =>
    let row := cols.map (fun col => col.getD t none)
    if row.all Option.isSome then some (t, row.reduceOption) else none)

/-- The market proxy `returns.mean(axis = 1)` (line 86) on the kept rows. -/
def marketProxyOf (table : List (ℕ × List ℚ)) : List (ℕ × ℚ) :=
  table.map (fun r => (r.1, meanQ r.2))

/-- One correlation-matrix entry of `returns.corr()`, carried by its
defining data `(cov, var_x, var_y)` — the float value is
`cov/(√var_x·√var_y)` — with `none` for the NaN of a zero-variance or
too-short series. -/
def corrData (x y : List ℚ) : Option (ℚ × ℚ × ℚ) :=
  match sampleCovPairs? (x.zip y), sampleVar? x, sampleVar? y with
  | some cv, some vx, some vy => if vx = 0 ∨ vy = 0 then none else some (cv, vx, vy)
  | _, _, _ => none

/-- RiskAgent.calculate_correlation_matrix on the dropna-ed table. -/
def corrMatrixOf (names : List String) (table : List (ℕ × List ℚ)) :
    List ((String × String) × Option (ℚ × ℚ × ℚ)) :=
  let cols := (List.range names.length).map (fun j => table.map (fun r => r.2.getD j 0))
  (names.zip cols).flatMap (fun a =>
    (names.zip cols).map (fun b => ((a.1, b.1), corrData a.2 b.2)))

/-- The recommendation loop (lines 67-110) threaded through `Except`: the
whole loop lives inside the function's single try block, so the first
per-symbol exception aborts every remaining symbol and discards the
recommendations already collected. -/
def processAll (proxy : List (ℕ × ℚ)) (tol hor : String) :
    List (String × Frame) → Except Unit (List RecEntry)
  | [] => Except.ok []
  | p :: rest =>
    match processSymbol proxy tol hor p.1 p.2 with
    | Except.error e => Except.error e
    | Except.ok none => processAll proxy tol hor rest
    | Except.ok (some r) => (processAll proxy tol hor rest).map (fun rs => r :: rs)

/-- Result bundle of generate_trade_recommendations (the wall-clock
timestamp of the source is environment input and not modelled). -/
structure PlayResult where
  risk_tolerance : String
  time_horizon : String
  recommendations : List (RecEntry × PosSize)
  portfolio_risk : PortRisk
  corr : List ((String × String) × Option (ℚ × ℚ × ℚ))
deriving DecidableEq

/-- PlayAgent.generate_trade_recommendations (play_agent.py lines 34-143).
The initial `generate_research_report` call is fully guarded by its own
catch-all handlers (research_agent.py lines 187-211) and its result is
never used, so it cannot affect this function's control flow and is not
modelled. `none` models the outer except handler returning `{}`: it fires
exactly when some symbol's loop body raises. -/
def generateTradeRecommendations (u : List (String × Frame)) (tol hor : String)
    (maxP : ℕ) (rpt : ℚ) : Option PlayResult :=
  let table := dropnaRows (returnsCols u)
  let prisk := calculate_portfolio_risk u.length (table.map Prod.snd) none
  let proxy := marketProxyOf table
  match processAll proxy tol hor u with
  | Except.error _ => none
  | Except.ok recs =>
    let sorted := sortRecommendations tol maxP recs
    some { risk_tolerance := tol, time_horizon := hor,
           recommendations := sorted.map (fun r => (r, calcPositionSize r.volSq tol rpt)),
           portfolio_risk := prisk,
           corr := corrMatrixOf (u.map Prod.fst) table }

/-- C9 counterexample: a universe holding one perfectly analysable symbol
and one symbol with empty data. The empty symbol's `iloc[-1]` IndexError
escapes the per-symbol loop to the function's single except handler, the
whole call returns the empty dict, and the healthy symbol "A" is not
analysed or included — one symbol's failure aborts the entire run. -/
theorem play_abort_on_one_symbol_cex :
    generateTradeRecommendations
      [("A", { close := [1, 2, 3], volume := [5, 5, 5] }),
       ("B", { close := [], volume := [] })] "medium" "medium" 5 (1 / 50) = none := by
  decide

theorem processAll_error (proxy : List (ℕ × ℚ)) (tol hor : String) :
    ∀ u : List (String × Frame), (∃ p ∈ u, p.2.close = []) →
      processAll proxy tol hor u = Except.error () := by
  intro u
  induction u with
  | nil => rintro ⟨p, hp, _⟩; exact absurd hp (List.not_mem_nil p)
  | cons q rest ih =>
    rintro ⟨p, hp, hempty⟩
    rcases List.mem_cons.mp hp with rfl | hrest
    · show processAll proxy tol hor (p :: rest) = Except.error ()
      unfold processAll processSymbol
      rw [hempty]
      rfl
    · show processAll proxy tol hor (q :: rest) = Except.error ()
      unfold processAll
      have herr := ih ⟨p, hrest, hempty⟩
      cases hq : processSymbol proxy tol hor q.1 q.2 with
      | error e => rfl
      | ok o =>
        cases o with
        | none => exact herr
        | some r => rw [herr]; rfl

/-- C9 amended: the two multi-asset entry points handle per-symbol
failures differently, and neither matches the claim in full.
ResearchAgent.analyze_universe skips a symbol with insufficient data and
still analyses every other symbol (the result's keys are exactly the
symbols with enough rows), but the skip is only logged — nothing about
skipped symbols is recorded in the returned mapping.
PlayAgent.generate_trade_recommendations runs its whole per-symbol loop
inside one try block: a failure for any one symbol (empty data) aborts
the entire run and the call returns the empty dict, with no other symbol
included. -/
theorem per_symbol_failure_handling {I : Type} (info : String → I)
    (u : List (String × Frame)) (lb : ℕ) (tol hor : String) (maxP : ℕ) (rpt : ℚ) :
    ((analyzeUniverse info u lb).map Prod.fst =
      (u.filter (fun p => decide (lb ≤ p.2.close.length))).map Prod.fst) ∧
    ((∃ p ∈ u, p.2.close = []) →
      generateTradeRecommendations u tol hor maxP rpt = none) := by
  constructor
  · induction u with
    | nil => rfl
    | cons q rest ih =>
      by_cases hlen : q.2.close.length < lb
      · have h1 : analyzeUniverse info (q :: rest) lb = analyzeUniverse info rest lb := by
          unfold analyzeUniverse
          rw [List.filterMap_cons, if_pos hlen]
        have h2 : decide (lb ≤ q.2.close.length) = false := by
          simp [Nat.not_le.mpr hlen]
        rw [h1, List.filter_cons, h2]
        exact ih
      · have h1 : analyzeUniverse info (q :: rest) lb =
            (q.1, mkStockAnalysis info lb q.1 q.2) :: analyzeUniverse info rest lb := by
          unfold analyzeUniverse
          rw [List.filterMap_cons, if_neg hlen]
        have h2 : decide (lb ≤ q.2.close.length) = true := by
          simp [Nat.le_of_not_lt (fun h => hlen h)]
        rw [h1, List.filter_cons, h2]
        simpa using ih
  · intro hex
    unfold generateTradeRecommendations
    dsimp only
    rw [processAll_error _ _ _ u hex]

/-- Witness for `per_symbol_failure_handling` at a concrete universe:
the research loop keeps exactly the sufficiently long symbol, and the
play loop aborts on a universe containing an empty symbol. -/
theorem per_symbol_failure_handling_w :
    ((analyzeUniverse (fun _ => ()) [("X", { close := [1, 2, 3], volume := [7, 7, 7] }),
        ("Y", { close := [4], volume := [9] })] 2).map Prod.fst = ["X"]) ∧
    generateTradeRecommendations [("X", { close := [1, 2], volume := [7, 7] }),
        ("Z", { close := [], volume := [] })] "low" "short" 3 (1 / 50) = none := by
  constructor
  · exact (per_symbol_failure_handling (fun _ => ())
      [("X", { close := [1, 2, 3], volume := [7, 7, 7] }),
       ("Y", { close := [4], volume := [9] })] 2 "low" "short" 3 (1 / 50)).1.trans
      (by decide)
  · exact (per_symbol_failure_handling (fun _ => ())
      [("X", { close := [1, 2], volume := [7, 7] }),
       ("Z", { close := [], volume := [] })] 2 "low" "short" 3 (1 / 50)).2
      ⟨("Z", { close := [], volume := [] }), by decide, rfl⟩

theorem length_reduceOption_all_isSome (l : List (Option ℚ))
    (h : ∀ x ∈ l, x.isSome = true) : l.reduceOption.length = l.length := by
  induction l with
  | nil => rfl
  | cons x xs ih =>
    cases x with
    | none => exact absurd (h none (List.mem_cons_self _ _)) (by simp)
    | some v =>
      rw [List.reduceOption_cons_of_some, List.length_cons, List.length_cons,
        ih (fun y hy => h y (List.mem_cons_of_mem _ hy))]

/-- For a positive price series of at least 14 bars, the annualised
volatility computed by the recommendation loop is a defined (non-NaN)
float. -/
theorem playVolSq_defined (closes : List ℚ) (hpos : ∀ x ∈ closes, 0 < x)
    (hn : 14 ≤ closes.length) : (playVolSq closes).isSome = true := by
  have hlen : (((List.range closes.length).map (pctChangeAt closes 1)).reduceOption).length =
      closes.length - 1 := by
    obtain ⟨m, hm⟩ : ∃ m, closes.length = m + 1 := ⟨closes.length - 1, by omega⟩
    rw [hm, List.range_succ_eq_map, List.map_cons, List.map_map]
    have h0 : pctChangeAt closes 1 0 = none := by
      unfold pctChangeAt
      rw [if_neg (by omega)]
    rw [h0, List.reduceOption_cons_of_none,
      length_reduceOption_all_isSome _ ?_, List.length_map, List.length_range]
    · omega
    · intro x hx
      obtain ⟨i, hi, rfl⟩ := List.mem_map.mp hx
      have hi' : i < m := List.mem_range.mp hi
      have h1 : i < closes.length := by omega
      have h2 : i + 1 < closes.length := by omega
      show (pctChangeAt closes 1 (Nat.succ i)).isSome = true
      unfold pctChangeAt
      rw [if_pos (by omega), show Nat.succ i - 1 = i from rfl,
        List.getElem?_eq_getElem h1, List.getElem?_eq_getElem h2]
      dsimp only
      rw [if_neg (ne_of_gt (hpos _ (List.getElem_mem h1)))]
      rfl
  unfold playVolSq sampleVar?
  rw [hlen, if_neg (by omega)]
  rfl

/-- A non-HOLD recommendation needs a nonzero momentum or mean-reversion
signal: every gate in _determine_recommendation only ever zeroes the
combined signal. -/
theorem determineRec_not_hold (ms mrs : ℚ) (vq b : Option ℚ) (tol hor : String)
    (h : (determineRec ms mrs vq b tol hor).1 ≠ "HOLD") : ms ≠ 0 ∨ mrs ≠ 0 := by
  by_contra hcon
  push_neg at hcon
  obtain ⟨hms, hmrs⟩ := hcon
  apply h
  unfold determineRec
  rw [hms, hmrs]
  norm_num

/-- A nonzero play-agent momentum signal needs the 50-bar moving average,
hence at least 50 bars of history. -/
theorem momSignalPlay_ne_zero (closes : List ℚ) (h : momSignalPlay closes ≠ 0) :
    50 ≤ closes.length := by
  by_contra hlen
  push_neg at hlen
  apply h
  have hw : windowAt closes 50 (closes.length - 1) = none := by
    unfold windowAt
    rw [if_neg]
    rintro ⟨h1, h2⟩
    omega
  unfold momSignalPlay
  rw [hw]
  cases closes.getLast? <;>
    cases (windowAt closes 20 (closes.length - 1)).map meanQ <;> rfl

/-- A nonzero play-agent mean-reversion signal needs a defined last RSI,
hence at least 14 bars of history. -/
theorem mrSignalPlay_ne_zero (closes : List ℚ) (h : mrSignalPlay closes ≠ 0) :
    14 ≤ closes.length := by
  by_contra hlen
  push_neg at hlen
  apply h
  have hg : rollingGainAvg closes 14 (closes.length - 1) = none := by
    unfold rollingGainAvg
    rw [if_neg]
    rintro ⟨h1, h2, h3⟩
    omega
  have hr : rsiAt closes 14 (closes.length - 1) = none := by
    unfold rsiAt
    rw [hg]
  unfold mrSignalPlay
  rw [hr]

/-- Dead-code justification for the sort key's NaN fallback: on positive
price data, every recommendation entry the loop actually emits carries a
defined (non-NaN) volatility — a non-HOLD action needs a nonzero signal,
a nonzero signal needs at least 14 bars of history, and 14 bars define
the volatility. -/
theorem processSymbol_vol_defined (proxy : List (ℕ × ℚ)) (tol hor t : String)
    (d : Frame) (hpos : ∀ x ∈ d.close, 0 < x) (r : RecEntry)
    (h : processSymbol proxy tol hor t d = Except.ok (some r)) :
    r.volSq.isSome = true := by
  unfold processSymbol at h
  dsimp only at h
  cases hlast : d.close.getLast? with
  | none =>
    rw [hlast] at h
    exact absurd h (by simp)
  | some c =>
    rw [hlast] at h
    dsimp only at h
    by_cases hhold : (determineRec (momSignalPlay d.close) (mrSignalPlay d.close)
        (playVolSq d.close)
        (betaQ ((List.range d.close.length).map (pctChangeAt d.close 1)) proxy)
        tol hor).1 = "HOLD"
    · rw [if_pos hhold] at h
      exact absurd h (by simp)
    · rw [if_neg hhold] at h
      injection h with h
      injection h with h
      have hsig := determineRec_not_hold _ _ _ _ _ _ hhold
      have hn : 14 ≤ d.close.length := by
        rcases hsig with hm | hm
        · have := momSignalPlay_ne_zero d.close hm
          omega
        · exact mrSignalPlay_ne_zero d.close hm
      rw [← h]
      exact playVolSq_defined d.close hpos hn

/-- Soundness of ordering volatilities by their squares: for nonnegative
stored squares, the float volatilities `√·` compare identically. -/
theorem volSq_order_sound (va vb : ℚ) (ha : 0 ≤ va) (hb : 0 ≤ vb) :
    va ≤ vb ↔ Real.sqrt (va : ℝ) ≤ Real.sqrt (vb : ℝ) := by
  constructor
  · intro h
    exact Real.sqrt_le_sqrt (by exact_mod_cast h)
  · intro h
    by_contra hlt
    push_neg at hlt
    have := Real.sqrt_lt_sqrt (show (0 : ℝ) ≤ (vb : ℝ) by exact_mod_cast hb)
      (show (vb : ℝ) < (va : ℝ) by exact_mod_cast hlt)
    exact absurd h (not_le.mpr this)

/-- Soundness of the `vol > c` threshold encoding through squares. -/
theorem volGtThresh_iff (v c : ℚ) (hv : 0 ≤ v) (hc : 0 ≤ c) :
    volGtThresh (some v) c = true ↔ (c : ℝ) < Real.sqrt (v : ℝ) := by
  simp only [volGtThresh, decide_eq_true_eq]
  constructor
  · intro h
    have := Real.sqrt_lt_sqrt (by positivity)
      (show ((c : ℝ) ^ 2) < (v : ℝ) by exact_mod_cast h)
    rwa [Real.sqrt_sq (by exact_mod_cast hc)] at this
  · intro h
    have h2 : (c : ℝ) ^ 2 < Real.sqrt (v : ℝ) ^ 2 :=
      pow_lt_pow_left₀ h (by exact_mod_cast hc) (by omega)
    rw [Real.sq_sqrt (by exact_mod_cast hv)] at h2
    exact_mod_cast h2

/-- Soundness of the `vol < c` threshold encoding through squares. -/
theorem volLtThresh_iff (v c : ℚ) (hv : 0 ≤ v) (hc : 0 ≤ c) :
    volLtThresh (some v) c = true ↔ Real.sqrt (v : ℝ) < (c : ℝ) := by
  simp only [volLtThresh, decide_eq_true_eq]
  constructor
  · intro h
    have := Real.sqrt_lt_sqrt (by exact_mod_cast hv)
      (show (v : ℝ) < ((c : ℝ) ^ 2) by exact_mod_cast h)
    rwa [Real.sqrt_sq (by exact_mod_cast hc)] at this
  · intro h
    have h2 : Real.sqrt (v : ℝ) ^ 2 < (c : ℝ) ^ 2 :=
      pow_lt_pow_left₀ h (Real.sqrt_nonneg _) (by omega)
    rw [Real.sq_sqrt (by exact_mod_cast hv)] at h2
    exact_mod_cast h2

/-- Soundness of the position-size cap test: for a nonnegative adjusted
risk and positive squared volatility, `v ≤ adj²` holds exactly when
`adj/√v` reaches the 100% cap. -/
theorem posSize_cap_sound (adj v : ℚ) (hadj : 0 ≤ adj) (hv : 0 < v) :
    v ≤ adj ^ 2 ↔ 1 ≤ (adj : ℝ) / Real.sqrt (v : ℝ) := by
  have hs : 0 < Real.sqrt (v : ℝ) := Real.sqrt_pos.mpr (by exact_mod_cast hv)
  rw [one_le_div hs]
  constructor
  · intro h
    have := Real.sqrt_le_sqrt (show (v : ℝ) ≤ ((adj : ℝ) ^ 2) by exact_mod_cast h)
    rwa [Real.sqrt_sq (by exact_mod_cast hadj)] at this
  · intro h
    have h2 : Real.sqrt (v : ℝ) ^ 2 ≤ (adj : ℝ) ^ 2 :=
      pow_le_pow_left₀ hs.le h 2
    rw [Real.sq_sqrt (le_of_lt (by exact_mod_cast hv))] at h2
    exact_mod_cast h2

end StockAgents
